import Mathlib

/-!
Verification of the document-enrichment core of the repository:
the credibility scorer, the author/keyword normalizers, the canonical-entity
resolver and the extraction-prompt builder, embedded shallowly from
`preprocessing_recommendation.py` and `example_multi_user_ingestion.py`.

Modelling conventions:
* scores are exact rationals (the Python code uses literal decimal constants);
* timestamps are integer day counts, so `(datetime.now() - d).days` becomes
  `now - d`; the ambient clock read performed by `datetime.now()` inside the
  scorers is modelled by an explicit final argument `now`;
* text is `String` at the interface and `List Char` in the scanning cores;
* Python regex word characters are modelled as alphanumeric-or-underscore.
-/

/-- ASCII lower-casing of a character list (models Python `str.lower`). -/
def lowerL (l : List Char) : List Char := l.map Char.toLower

/-- Lower-casing on strings. -/
def lowerStr (s : String) : String := ⟨lowerL s.data⟩

/-- Auxiliary scan: does `needle` occur as a contiguous sublist of the hay? -/
def containsSubAux (needle : List Char) : List Char → Bool
  | [] => needle.isPrefixOf ([] : List Char)
  | c :: rest => needle.isPrefixOf (c :: rest) || containsSubAux needle rest

/-- Substring containment, models Python `needle in hay` on str. -/
def containsSub (hay needle : List Char) : Bool := containsSubAux needle hay

/-- Strip leading and trailing whitespace (models Python `str.strip()`). -/
def trimWS (l : List Char) : List Char :=
  ((l.dropWhile Char.isWhitespace).reverse.dropWhile Char.isWhitespace).reverse

/-- Split a character list at every comma (models Python `str.split(",")`,
which keeps empty segments and yields one segment even for empty input). -/
def splitComma : List Char → List (List Char)
  | [] => [[]]
  | c :: rest =>
    if c = ',' then [] :: splitComma rest
    else
      match splitComma rest with
      | [] => [[c]]
      | p :: ps => (c :: p) :: ps

/-- Word characters, modelling regex `\w` for the ASCII texts at hand. -/
def wordChar (c : Char) : Bool := c.isAlphanum || c = '_'

/-- Is the character at index `i` (if any) a word character? -/
def wordAt (t : List Char) (i : ℕ) : Bool :=
  match t.get? i with
  | some c => wordChar c
  | none => false

/-- Regex `\b`: a word boundary sits at position `i` of `t` when exactly one
of the two surrounding positions holds a word character. -/
def boundaryB (t : List Char) (i : ℕ) : Bool :=
  (if i = 0 then false else wordAt t (i - 1)) != wordAt t i

/-- Case-insensitive "starts with" on character lists. -/
def ciIsPre : List Char → List Char → Bool
  | [], _ => true
  | _ :: _, [] => false
  | p :: ps, c :: cs => (p.toLower == c.toLower) && ciIsPre ps cs

/-- A whole-word, case-insensitive match of pattern `p` at position `i` of `t`:
models a match of the regex `\b<literal>\b` with `re.IGNORECASE`. -/
def wwMatchAt (p t : List Char) (i : ℕ) : Bool :=
  boundaryB t i && ciIsPre p (t.drop i) && boundaryB t (i + p.length)

/-- Left-to-right scan for the first whole-word match, starting at index `i`
with the given fuel (models the regex engine trying positions in order). -/
def scanWW (p t : List Char) : ℕ → ℕ → Option ℕ
  | 0, _ => none
  | fuel + 1, i => if wwMatchAt p t i then some i else scanWW p t fuel (i + 1)

/-- Position of the leftmost whole-word, case-insensitive match of `p` in `t`. -/
def findFirstWW (p t : List Char) : Option ℕ := scanWW p t (t.length + 1) 0

/-- `re.sub(r"\b<p>\b", repl, t, count=1, flags=re.IGNORECASE)`: replace only
the leftmost whole-word occurrence of `p` in `t` with `repl`. -/
def subFirstWW (p repl t : List Char) : List Char :=
  match findFirstWW p t with
  | none => t
  | some i => t.take i ++ repl ++ t.drop (i + p.length)

/-- `re.search(r"\b<p>\b", t, re.IGNORECASE)` viewed as a Boolean. -/
def wwSearch (p t : List Char) : Bool :=
  (List.range (t.length + 1)).any (fun i => wwMatchAt p t i)

/-- The proposition that `ab` occurs in `text` as a whole word, matched
case-insensitively, at least once. -/
def OccursWholeWordCI (ab text : String) : Prop :=
  ∃ i, i ≤ text.data.length ∧ wwMatchAt ab.data text.data i = true

namespace PreprocessingRecommendation

/-- `TYPE_SCORES` dict literal from `calculate_credibility_score`. -/
def TYPE_SCORES : List (String × ℚ) :=
  [("paper", 0.4), ("book", 0.35), ("article", 0.25),
   ("technical_doc", 0.3), ("blog_post", 0.15), ("interview", 0.2)]

/-- `TYPE_SCORES.get(doc_type, 0.1)`. -/
def typeScoreGet (doc_type : String) : ℚ := (List.lookup doc_type TYPE_SCORES).getD 0.1

/-- `PRESTIGIOUS_VENUES` list literal. -/
def PRESTIGIOUS_VENUES : List String :=
  ["nature", "science", "cell", "nejm", "lancet",
   "neurips", "icml", "iclr", "cvpr", "acl",
   "physical review", "quantum", "ieee"]

/-- The venue bonus: `if publication_venue:` (Python truthiness, so an empty
string takes no bonus) and then the `any(... in publication_venue.lower())`
prestige test. -/
def venueBonus (publication_venue : Option String) : ℚ :=
  match publication_venue with
  | none => 0
  | some v =>
    if v.data = [] then 0
    else if PRESTIGIOUS_VENUES.any (fun p => containsSub (lowerL v.data) p.data) then 0.2
    else 0

/-- The recency adjustment; `years_old = (datetime.now() - publication_date).days / 365`
with the ambient clock modelled by `now` (integer days). -/
def recencyAdj (publication_date : Option ℤ) (now : ℤ) : ℚ :=
  match publication_date with
  | none => 0
  | some d =>
    if ((now - d : ℤ) : ℚ) / 365 < 2 then 0.1
    else if ((now - d : ℤ) : ℚ) / 365 > 10 then -0.05
    else 0

/-- `calculate_credibility_score` from `preprocessing_recommendation.py`.
The final argument `now` models the value read from `datetime.now()` inside
the function body; it is not a parameter of the Python function. -/
def calculate_credibility_score (doc_type : String) (publication_venue : Option String)
    (peer_reviewed : Bool) (publication_date : Option ℤ) (authors : List String)
    (now : ℤ) : ℚ :=
  min (typeScoreGet doc_type
      + (if peer_reviewed then 0.3 else 0)
      + venueBonus publication_venue
      + recencyAdj publication_date now
      + (if 3 ≤ authors.length then 0.05 else 0)) 1

/-- Core of the `normalize_author_names` validator, on character lists:
`if ',' in author: parts = [p.strip() for p in author.split(',')];
return f"{parts[1]} {parts[0]}"`. -/
def normalizeAuthorChars (author : List Char) : List Char :=
  if ',' ∈ author then
    ((splitComma author).map trimWS).getD 1 [] ++ ' ' :: ((splitComma author).map trimWS).getD 0 []
  else author

/-- The `normalize_author_names` validator on strings. -/
def normalize_author_names (author : String) : String := ⟨normalizeAuthorChars author.data⟩

/-- Core of the `lowercase_and_normalize` validator on one value:
`v.lower().replace(' ', '_')` (each single space character becomes an
underscore; no other character is touched). -/
def tokenChars (v : List Char) : List Char :=
  (lowerL v).map (fun c => if c = ' ' then '_' else c)

/-- The `lowercase_and_normalize` validator, applied to a whole list as the
Python comprehension does. -/
def lowercase_and_normalize (values : List String) : List String :=
  values.map (fun v => ⟨tokenChars v.data⟩)

/-- The static `CANONICAL_TERMS` table of `extract_canonical_entities`. -/
def CANONICAL_TERMS : List (String × List (String × String)) :=
  [("ai",
    [("GPT", "Generative Pre-trained Transformer"),
     ("BERT", "Bidirectional Encoder Representations from Transformers"),
     ("LLM", "Large Language Model"),
     ("NLP", "Natural Language Processing"),
     ("CV", "Computer Vision"),
     ("RL", "Reinforcement Learning"),
     ("GAN", "Generative Adversarial Network"),
     ("CNN", "Convolutional Neural Network"),
     ("RNN", "Recurrent Neural Network"),
     ("LSTM", "Long Short-Term Memory"),
     ("API", "Application Programming Interface")]),
   ("quantum_computing",
    [("QC", "Quantum Computing"),
     ("QKD", "Quantum Key Distribution"),
     ("VQE", "Variational Quantum Eigensolver"),
     ("QAOA", "Quantum Approximate Optimization Algorithm"),
     ("QPU", "Quantum Processing Unit")]),
   ("biology",
    [("DNA", "Deoxyribonucleic Acid"),
     ("RNA", "Ribonucleic Acid"),
     ("mRNA", "messenger Ribonucleic Acid"),
     ("CRISPR", "Clustered Regularly Interspaced Short Palindromic Repeats"),
     ("PCR", "Polymerase Chain Reaction")])]

/-- `extract_canonical_entities(text, domain)`: look the lower-cased domain up
in the table (default empty), keep each pair whose abbreviation has a
whole-word case-insensitive occurrence in the text. -/
def extract_canonical_entities (text domain : String) : List (String × String) :=
  ((List.lookup (lowerStr domain) CANONICAL_TERMS).getD []).filter
    (fun ab => wwSearch ab.1.data text.data)

/-- `enrich_text_with_canonical_terms(text, canonical_map)`: for each pair,
substitute the first whole-word case-insensitive occurrence of the
abbreviation by `"<abbrev> (<full_term>)"` (`re.sub` with `count=1`). -/
def enrich_text_with_canonical_terms (text : String)
    (canonical_map : List (String × String)) : String :=
  canonical_map.foldl
    (fun enriched ab =>
      ⟨subFirstWW ab.1.data (ab.1.data ++ (' ' :: '(' :: (ab.2.data ++ [')']))) enriched.data⟩)
    text

/-- Error kind raised by metadata validation. -/
inductive ValidationError
  | missing (field : String)
  | outOfRange (field : String)
deriving DecidableEq

/-- The `DocumentMetadata` pydantic model, as a value record. -/
structure DocumentMetadata where
  title : String
  authors : List String
  publication_date : Option ℤ
  source_url : Option String
  primary_topic : String
  subtopics : List String
  keywords : List String
  doc_type : String
  credibility_score : Option ℚ
  publication_venue : Option String
  peer_reviewed : Bool
  language : String
  reading_level : Option String
  estimated_read_time_minutes : Option ℤ
  external_ids : List (String × String)
  cited_works : List String
  custom_tags : List String
  content_warnings : List String
deriving DecidableEq

/-- The property bag handed to the model constructor; `none` means the key
is absent from the bag. -/
structure MetadataBag where
  title : Option String := none
  authors : Option (List String) := none
  publication_date : Option (Option ℤ) := none
  source_url : Option (Option String) := none
  primary_topic : Option String := none
  subtopics : Option (List String) := none
  keywords : Option (List String) := none
  doc_type : Option String := none
  credibility_score : Option (Option ℚ) := none
  publication_venue : Option (Option String) := none
  peer_reviewed : Option Bool := none
  language : Option String := none
  reading_level : Option (Option String) := none
  estimated_read_time_minutes : Option (Option ℤ) := none
  external_ids : Option (List (String × String)) := none
  cited_works : Option (List String) := none
  custom_tags : Option (List String) := none
  content_warnings : Option (List String) := none

/-- Construction of a `DocumentMetadata` from a property bag, following
pydantic-v1 semantics for this model: a required field (`title`,
`primary_topic`, `doc_type`) that is absent fails; absent optional fields
take their declared defaults; a supplied `credibility_score` outside
`[0, 1]` fails (`ge=0, le=1`); empty strings are ordinary `str` values and
pass; the `normalize_author_names` and `lowercase_and_normalize` validators
are applied to `authors` and to `keywords`/`subtopics`. -/
def mkDocumentMetadata (bag : MetadataBag) : Except ValidationError DocumentMetadata :=
  match bag.title with
  | none => .error (.missing "title")
  | some t =>
    match bag.primary_topic with
    | none => .error (.missing "primary_topic")
    | some pt =>
      match bag.doc_type with
      | none => .error (.missing "doc_type")
      | some dt =>
        match bag.credibility_score.getD none with
        | some c =>
          if 0 ≤ c ∧ c ≤ 1 then
            .ok (DocumentMetadata.mk t ((bag.authors.getD []).map normalize_author_names)
              (bag.publication_date.getD none) (bag.source_url.getD none) pt
              (lowercase_and_normalize (bag.subtopics.getD []))
              (lowercase_and_normalize (bag.keywords.getD [])) dt (some c)
              (bag.publication_venue.getD none) (bag.peer_reviewed.getD false)
              (bag.language.getD "en") (bag.reading_level.getD none)
              (bag.estimated_read_time_minutes.getD none) (bag.external_ids.getD [])
              (bag.cited_works.getD []) (bag.custom_tags.getD [])
              (bag.content_warnings.getD []))
          else .error (.outOfRange "credibility_score")
        | none =>
          .ok (DocumentMetadata.mk t ((bag.authors.getD []).map normalize_author_names)
            (bag.publication_date.getD none) (bag.source_url.getD none) pt
            (lowercase_and_normalize (bag.subtopics.getD []))
            (lowercase_and_normalize (bag.keywords.getD [])) dt none
            (bag.publication_venue.getD none) (bag.peer_reviewed.getD false)
            (bag.language.getD "en") (bag.reading_level.getD none)
            (bag.estimated_read_time_minutes.getD none) (bag.external_ids.getD [])
            (bag.cited_works.getD []) (bag.custom_tags.getD [])
            (bag.content_warnings.getD []))

end PreprocessingRecommendation

namespace ExampleMultiUserIngestion

/-- `TYPE_SCORES` dict literal from the example-file scorer (identical). -/
def TYPE_SCORES : List (String × ℚ) :=
  [("paper", 0.4), ("book", 0.35), ("article", 0.25),
   ("technical_doc", 0.3), ("blog_post", 0.15), ("interview", 0.2)]

/-- `TYPE_SCORES.get(doc_type, 0.1)`. -/
def typeScoreGet (doc_type : String) : ℚ := (List.lookup doc_type TYPE_SCORES).getD 0.1

/-- The example-file `PRESTIGIOUS` list: only five entries. -/
def PRESTIGIOUS : List String := ["nature", "science", "neurips", "icml", "iclr"]

/-- Venue bonus of the example-file scorer (same shape, shorter list). -/
def venueBonus (publication_venue : Option String) : ℚ :=
  match publication_venue with
  | none => 0
  | some v =>
    if v.data = [] then 0
    else if PRESTIGIOUS.any (fun p => containsSub (lowerL v.data) p.data) then 0.2
    else 0

/-- Recency adjustment of the example-file scorer: only the `< 2 years`
bonus, no old-age penalty. -/
def recencyAdj (publication_date : Option ℤ) (now : ℤ) : ℚ :=
  match publication_date with
  | none => 0
  | some d => if ((now - d : ℤ) : ℚ) / 365 < 2 then 0.1 else 0

/-- `calculate_credibility_score` from `example_multi_user_ingestion.py`
(note its different parameter order). The final argument `now` models the
value read from `datetime.now()` inside the function body. -/
def calculate_credibility_score (doc_type : String) (peer_reviewed : Bool)
    (publication_venue : Option String) (publication_date : Option ℤ)
    (authors : List String) (now : ℤ) : ℚ :=
  min (typeScoreGet doc_type
      + (if peer_reviewed then 0.3 else 0)
      + venueBonus publication_venue
      + recencyAdj publication_date now
      + (if 3 ≤ authors.length then 0.05 else 0)) 1

/-- The fixed preamble of `get_custom_prompt`. -/
def base_prompt : String :=
  "\nYou are extracting entities for a technical knowledge base.\n\n**Use canonical entity names (REQUIRED):**\n"

/-- The AI canonical-naming block. -/
def aiBlock : String :=
  "\n- \"Generative Pre-trained Transformer\" NOT \"GPT\"\n- \"Large Language Model\" NOT \"LLM\"\n- \"Natural Language Processing\" NOT \"NLP\"\n- \"Transformer Architecture\" NOT \"transformers\"\n- \"Convolutional Neural Network\" NOT \"CNN\"\n- \"Reinforcement Learning\" NOT \"RL\"\n"

/-- The quantum-computing canonical-naming block. -/
def qcBlock : String :=
  "\n- \"Quantum Computing\" NOT \"QC\"\n- \"Quantum Key Distribution\" NOT \"QKD\"\n- \"Variational Quantum Eigensolver\" NOT \"VQE\"\n- \"Quantum Processing Unit\" NOT \"QPU\"\n"

/-- The biology canonical-naming block. -/
def bioBlock : String :=
  "\n- \"Deoxyribonucleic Acid\" NOT \"DNA\"\n- \"Ribonucleic Acid\" NOT \"RNA\"\n- \"Clustered Regularly Interspaced Short Palindromic Repeats\" NOT \"CRISPR\"\n- \"Polymerase Chain Reaction\" NOT \"PCR\"\n"

/-- The `canonical_mappings` dict literal of `get_custom_prompt`. -/
def canonical_mappings : List (String × String) :=
  [("AI", aiBlock), ("quantum_computing", qcBlock), ("biology", bioBlock)]

/-- The fixed entity-type catalog. -/
def entity_types : String :=
  "\n**Extract these entity types:**\n- **Concept**: Technical concepts, theories, algorithms\n- **Person**: Researchers, authors, experts (use full names)\n- **Organization**: Research labs, companies, universities\n- **Technology**: Tools, frameworks, systems\n- **Method**: Techniques, methodologies, approaches\n- **Paper**: Academic papers (extract title + year if available)\n"

/-- The fixed relationship-type catalog. -/
def relationships : String :=
  "\n**Relationship types:**\n- is_subfield_of: Subtopic → main topic\n- builds_on: New concept → foundational concept\n- developed_by: Technology → creator\n- published_in: Paper → venue\n- applied_to: Method → application domain\n- related_to: General conceptual connections\n"

/-- The fixed consistency-rules block. -/
def consistency : String :=
  "\n**Consistency requirements:**\n- Always use full canonical names on first mention\n- Link abbreviations to canonical forms\n- Maintain consistent entity IDs across chunks\n- Use snake_case for relationship names (e.g., is_subfield_of)\n"

/-- `get_custom_prompt(topic)`: preamble, then the canonical-naming block
selected by `canonical_mappings.get(topic, "")`, then the three fixed blocks. -/
def get_custom_prompt (topic : String) : String :=
  base_prompt ++ (List.lookup topic canonical_mappings).getD "" ++ entity_types
    ++ relationships ++ consistency

end ExampleMultiUserIngestion

/-! Spec-side reference definitions, written from the wording of the spec
(`spec.md` sections 4.2, 4.3 and 4.5), to be compared with the embedded code. -/

/-- The prestige list as enumerated in spec section 4.3. -/
def specPrestige : List String :=
  ["nature", "science", "neurips", "icml", "iclr",
   "cell", "nejm", "lancet", "cvpr", "acl",
   "ieee", "quantum", "physical review"]

/-- The additive reference formula of spec section 4.3:
base score by doc_type, +0.30 for peer review, +0.20 when the venue is
present and its lower-cased text contains a member of the prestige list,
the recency adjustment on `(reference_now - publication_date) / 365` (+0.10
below two years, -0.05 above ten years, skipped without a date), +0.05 for
three or more authors, all capped by `min(total, 1.0)`. -/
def credSpecFormula (doc_type : String) (peer_reviewed : Bool)
    (publication_venue : Option String) (publication_date : Option ℤ)
    (authors : List String) (reference_now : ℤ) : ℚ :=
  let base : ℚ :=
    if doc_type = "paper" then 0.4
    else if doc_type = "book" then 0.35
    else if doc_type = "technical_doc" then 0.3
    else if doc_type = "article" then 0.25
    else if doc_type = "interview" then 0.2
    else if doc_type = "blog_post" then 0.15
    else 0.1
  let peer : ℚ := if peer_reviewed then 0.3 else 0
  let venue : ℚ :=
    match publication_venue with
    | none => 0
    | some v =>
      if specPrestige.any (fun p => containsSub (lowerL v.data) p.data) then 0.2 else 0
  let recency : ℚ :=
    match publication_date with
    | none => 0
    | some d =>
      if ((reference_now - d : ℤ) : ℚ) / 365 < 2 then 0.1
      else if ((reference_now - d : ℤ) : ℚ) / 365 > 10 then -0.05
      else 0
  let authorsBonus : ℚ := if 3 ≤ authors.length then 0.05 else 0
  min (base + peer + venue + recency + authorsBonus) 1

/-- Author normalization as worded by the spec: split on the FIRST comma,
trim whitespace on both parts, return `"First Last"`. -/
def normalize_author_spec (a : List Char) : List Char :=
  if ',' ∈ a then
    trimWS ((a.dropWhile (· ≠ ',')).drop 1) ++ ' ' :: trimWS (a.takeWhile (· ≠ ','))
  else a

/-- Run-collapsing normalization as worded by the spec: after lower-casing,
every maximal run of whitespace becomes a single underscore. The Boolean
argument records whether the previous character was whitespace. -/
def collapseWS : Bool → List Char → List Char
  | _, [] => []
  | inWS, c :: rest =>
    if c.isWhitespace then
      (if inWS then collapseWS true rest else '_' :: collapseWS true rest)
    else c :: collapseWS false rest

/-- `normalize_token` as worded by the spec. -/
def normalize_token_spec (v : List Char) : List Char := collapseWS false (lowerL v)

/-- The canonical-naming block the spec says `get_custom_prompt` selects:
the topic's block, or an empty block for unknown topics. -/
def canonicalBlockSpec (topic : String) : String :=
  if topic = "AI" then ExampleMultiUserIngestion.aiBlock
  else if topic = "quantum_computing" then ExampleMultiUserIngestion.qcBlock
  else if topic = "biology" then ExampleMultiUserIngestion.bioBlock
  else ""

/-- Every whitespace in the list is a plain space and no two spaces are
adjacent (the regime in which per-character replacement and run-collapsing
agree). -/
def singleSpaced : List Char → Bool
  | [] => true
  | [c] => !c.isWhitespace || c == ' '
  | c :: d :: rest =>
    (!c.isWhitespace || c == ' ') && !(c == ' ' && d == ' ') && singleSpaced (d :: rest)

/-- The head of the list, if any, is not whitespace. -/
def headNotWS : List Char → Bool
  | [] => true
  | c :: _ => !c.isWhitespace

/-- Did a fallible computation succeed? -/
def exceptOk {ε α : Type} : Except ε α → Bool
  | .ok _ => true
  | .error _ => false

/-! ## Helper lemmas -/

theorem any_eq_any_of_mem_iff {α : Type} {l₁ l₂ : List α} (p : α → Bool)
    (h : ∀ x, x ∈ l₁ ↔ x ∈ l₂) : l₁.any p = l₂.any p := by
  have hiff : (l₁.any p = true) ↔ (l₂.any p = true) := by
    simp only [List.any_eq_true]
    constructor
    · rintro ⟨x, hx, hp⟩
      exact ⟨x, (h x).mp hx, hp⟩
    · rintro ⟨x, hx, hp⟩
      exact ⟨x, (h x).mpr hx, hp⟩
  cases h₁ : l₁.any p <;> cases h₂ : l₂.any p <;> simp_all

theorem prestige_mem_iff (x : String) :
    x ∈ PreprocessingRecommendation.PRESTIGIOUS_VENUES ↔ x ∈ specPrestige := by
  simp only [PreprocessingRecommendation.PRESTIGIOUS_VENUES, specPrestige,
    List.mem_cons, List.not_mem_nil, or_false]
  tauto

theorem PR_typeScoreGet_eq (dt : String) :
    PreprocessingRecommendation.typeScoreGet dt =
      (if dt = "paper" then (0.4 : ℚ)
       else if dt = "book" then 0.35
       else if dt = "technical_doc" then 0.3
       else if dt = "article" then 0.25
       else if dt = "interview" then 0.2
       else if dt = "blog_post" then 0.15
       else 0.1) := by
  by_cases h1 : dt = "paper"
  · subst h1
    simp [PreprocessingRecommendation.typeScoreGet, PreprocessingRecommendation.TYPE_SCORES,
      List.lookup]
  by_cases h2 : dt = "book"
  · subst h2
    simp [PreprocessingRecommendation.typeScoreGet, PreprocessingRecommendation.TYPE_SCORES,
      List.lookup]
  by_cases h3 : dt = "technical_doc"
  · subst h3
    simp [PreprocessingRecommendation.typeScoreGet, PreprocessingRecommendation.TYPE_SCORES,
      List.lookup]
  by_cases h4 : dt = "article"
  · subst h4
    simp [PreprocessingRecommendation.typeScoreGet, PreprocessingRecommendation.TYPE_SCORES,
      List.lookup]
  by_cases h5 : dt = "interview"
  · subst h5
    simp [PreprocessingRecommendation.typeScoreGet, PreprocessingRecommendation.TYPE_SCORES,
      List.lookup]
  by_cases h6 : dt = "blog_post"
  · subst h6
    simp [PreprocessingRecommendation.typeScoreGet, PreprocessingRecommendation.TYPE_SCORES,
      List.lookup]
  have e1 : (dt == "paper") = false := beq_eq_false_iff_ne.mpr h1
  have e2 : (dt == "book") = false := beq_eq_false_iff_ne.mpr h2
  have e3 : (dt == "technical_doc") = false := beq_eq_false_iff_ne.mpr h3
  have e4 : (dt == "article") = false := beq_eq_false_iff_ne.mpr h4
  have e5 : (dt == "interview") = false := beq_eq_false_iff_ne.mpr h5
  have e6 : (dt == "blog_post") = false := beq_eq_false_iff_ne.mpr h6
  simp [PreprocessingRecommendation.typeScoreGet, PreprocessingRecommendation.TYPE_SCORES,
    List.lookup, e1, e2, e3, e4, e5, e6, h1, h2, h3, h4, h5, h6]

theorem PR_venueBonus_eq (v : Option String) :
    PreprocessingRecommendation.venueBonus v =
      (match v with
       | none => (0 : ℚ)
       | some s =>
         if specPrestige.any (fun p => containsSub (lowerL s.data) p.data) then 0.2 else 0) := by
  cases v with
  | none => rfl
  | some s =>
    simp only [PreprocessingRecommendation.venueBonus]
    by_cases h : s.data = []
    · have hany : (specPrestige.any fun p => containsSub (lowerL ([] : List Char)) p.data) = false := by
        decide
      rw [if_pos h, h, hany]
      simp
    · rw [if_neg h, any_eq_any_of_mem_iff _ prestige_mem_iff]

theorem PR_typeScore_bounds (dt : String) :
    (0.1 : ℚ) ≤ PreprocessingRecommendation.typeScoreGet dt
      ∧ PreprocessingRecommendation.typeScoreGet dt ≤ 0.4 := by
  rw [PR_typeScoreGet_eq]
  split_ifs <;> norm_num

theorem PR_venueBonus_cases (v : Option String) :
    PreprocessingRecommendation.venueBonus v = 0
      ∨ PreprocessingRecommendation.venueBonus v = 0.2 := by
  cases v with
  | none => exact Or.inl rfl
  | some s =>
    simp only [PreprocessingRecommendation.venueBonus]
    split_ifs <;> simp

theorem PR_recencyAdj_cases (pd : Option ℤ) (now : ℤ) :
    PreprocessingRecommendation.recencyAdj pd now = 0
      ∨ PreprocessingRecommendation.recencyAdj pd now = 0.1
      ∨ PreprocessingRecommendation.recencyAdj pd now = -0.05 := by
  cases pd with
  | none => exact Or.inl rfl
  | some d =>
    simp only [PreprocessingRecommendation.recencyAdj]
    split_ifs <;> simp

theorem EX_typeScoreGet_eq_PR (dt : String) :
    ExampleMultiUserIngestion.typeScoreGet dt = PreprocessingRecommendation.typeScoreGet dt := rfl

theorem EX_venueBonus_cases (v : Option String) :
    ExampleMultiUserIngestion.venueBonus v = 0
      ∨ ExampleMultiUserIngestion.venueBonus v = 0.2 := by
  cases v with
  | none => exact Or.inl rfl
  | some s =>
    simp only [ExampleMultiUserIngestion.venueBonus]
    split_ifs <;> simp

theorem EX_recencyAdj_cases (pd : Option ℤ) (now : ℤ) :
    ExampleMultiUserIngestion.recencyAdj pd now = 0
      ∨ ExampleMultiUserIngestion.recencyAdj pd now = 0.1 := by
  cases pd with
  | none => exact Or.inl rfl
  | some d =>
    simp only [ExampleMultiUserIngestion.recencyAdj]
    split_ifs <;> simp

theorem PR_score_bounds (dt : String) (v : Option String) (pr : Bool) (pd : Option ℤ)
    (au : List String) (now : ℤ) :
    (0.05 : ℚ) ≤ PreprocessingRecommendation.calculate_credibility_score dt v pr pd au now
      ∧ PreprocessingRecommendation.calculate_credibility_score dt v pr pd au now ≤ 1 := by
  have hb := PR_typeScore_bounds dt
  have h3 := PR_venueBonus_cases v
  have h4 := PR_recencyAdj_cases pd now
  unfold PreprocessingRecommendation.calculate_credibility_score
  constructor
  · refine le_min ?_ (by norm_num)
    rcases h3 with h3 | h3 <;> rcases h4 with h4 | h4 | h4 <;> split_ifs <;>
      rw [h3, h4] <;> linarith [hb.1, hb.2]
  · exact min_le_right _ _

theorem EX_score_bounds (dt : String) (pr : Bool) (v : Option String) (pd : Option ℤ)
    (au : List String) (now : ℤ) :
    (0.05 : ℚ) ≤ ExampleMultiUserIngestion.calculate_credibility_score dt pr v pd au now
      ∧ ExampleMultiUserIngestion.calculate_credibility_score dt pr v pd au now ≤ 1 := by
  have hb := PR_typeScore_bounds dt
  have h3 := EX_venueBonus_cases v
  have h4 := EX_recencyAdj_cases pd now
  unfold ExampleMultiUserIngestion.calculate_credibility_score
  rw [EX_typeScoreGet_eq_PR]
  constructor
  · refine le_min ?_ (by norm_num)
    rcases h3 with h3 | h3 <;> rcases h4 with h4 | h4 <;> split_ifs <;>
      rw [h3, h4] <;> linarith [hb.1, hb.2]
  · exact min_le_right _ _

theorem EX_typeScoreGet_paper : ExampleMultiUserIngestion.typeScoreGet "paper" = 0.4 := by
  rw [EX_typeScoreGet_eq_PR, PR_typeScoreGet_eq]
  simp

theorem EX_score_ieee :
    ExampleMultiUserIngestion.calculate_credibility_score "paper" false (some "ieee") none [] 0
      = 0.4 := by
  have hany : (ExampleMultiUserIngestion.PRESTIGIOUS.any
      fun p => containsSub (lowerL ("ieee").data) p.data) = false := by decide
  unfold ExampleMultiUserIngestion.calculate_credibility_score
  rw [EX_typeScoreGet_paper]
  norm_num [ExampleMultiUserIngestion.venueBonus, ExampleMultiUserIngestion.recencyAdj,
    hany, min_def]

theorem spec_score_ieee : credSpecFormula "paper" false (some "ieee") none [] 0 = 0.6 := by
  have hany : (specPrestige.any fun p => containsSub (lowerL ("ieee").data) p.data) = true := by
    decide
  norm_num [credSpecFormula, hany, min_def]

theorem EX_score_old :
    ExampleMultiUserIngestion.calculate_credibility_score "paper" false none (some 0) [] 4000
      = 0.4 := by
  unfold ExampleMultiUserIngestion.calculate_credibility_score
  rw [EX_typeScoreGet_paper]
  norm_num [ExampleMultiUserIngestion.venueBonus, ExampleMultiUserIngestion.recencyAdj, min_def]

theorem spec_score_old : credSpecFormula "paper" false none (some 0) [] 4000 = 0.35 := by
  norm_num [credSpecFormula, min_def]

theorem PR_typeScoreGet_paper : PreprocessingRecommendation.typeScoreGet "paper" = 0.4 := by
  rw [PR_typeScoreGet_eq]
  simp

theorem PR_score_recent :
    PreprocessingRecommendation.calculate_credibility_score "paper" none false (some 0) [] 365
      = 0.5 := by
  unfold PreprocessingRecommendation.calculate_credibility_score
  rw [PR_typeScoreGet_paper]
  norm_num [PreprocessingRecommendation.venueBonus, PreprocessingRecommendation.recencyAdj,
    min_def]

theorem PR_score_stale :
    PreprocessingRecommendation.calculate_credibility_score "paper" none false (some 0) [] 4000
      = 0.35 := by
  unfold PreprocessingRecommendation.calculate_credibility_score
  rw [PR_typeScoreGet_paper]
  norm_num [PreprocessingRecommendation.venueBonus, PreprocessingRecommendation.recencyAdj,
    min_def]

/-! ## Claim theorems -/

/-- Claim C1, counterexample: the two source files do NOT implement the same
formula. With doc_type "paper" and venue "ieee", the example-file scorer
returns 0.4 (its prestige list lacks "ieee") while the reference formula of
the spec gives 0.6. -/
theorem credibility_example_file_deviates :
    ExampleMultiUserIngestion.calculate_credibility_score "paper" false (some "ieee") none [] 0
      ≠ credSpecFormula "paper" false (some "ieee") none [] 0 := by
  rw [EX_score_ieee, spec_score_ieee]
  norm_num

/-- Claim C1 (amended): the scorer of `preprocessing_recommendation.py`
equals the additive reference formula of the spec on every input; the scorer
of `example_multi_user_ingestion.py` deviates from it: its prestige list has
only nature/science/neurips/icml/iclr (so "ieee" earns no bonus) and it has
no -0.05 old-age penalty (an eleven-year-old paper keeps 0.4). -/
theorem credibility_matches_spec_formula :
    (∀ (dt : String) (v : Option String) (pr : Bool) (pd : Option ℤ)
        (au : List String) (now : ℤ),
      PreprocessingRecommendation.calculate_credibility_score dt v pr pd au now
        = credSpecFormula dt pr v pd au now)
    ∧ ExampleMultiUserIngestion.calculate_credibility_score "paper" false (some "ieee") none [] 0
        = 0.4
    ∧ credSpecFormula "paper" false (some "ieee") none [] 0 = 0.6
    ∧ ExampleMultiUserIngestion.calculate_credibility_score "paper" false none (some 0) [] 4000
        = 0.4
    ∧ credSpecFormula "paper" false none (some 0) [] 4000 = 0.35 := by
  refine ⟨?_, EX_score_ieee, spec_score_ieee, EX_score_old, spec_score_old⟩
  intro dt v pr pd au now
  cases pd <;>
    (simp only [credSpecFormula, PreprocessingRecommendation.calculate_credibility_score,
      PreprocessingRecommendation.recencyAdj]
     rw [PR_typeScoreGet_eq, PR_venueBonus_eq])

/-- Claim C2: for every well-typed input, both credibility scorers return a
value in the closed interval [0, 1]. -/
theorem credibility_score_in_unit_interval :
    ∀ (dt : String) (v : Option String) (pr : Bool) (pd : Option ℤ)
      (au : List String) (now : ℤ),
      (0 ≤ PreprocessingRecommendation.calculate_credibility_score dt v pr pd au now
        ∧ PreprocessingRecommendation.calculate_credibility_score dt v pr pd au now ≤ 1)
      ∧ (0 ≤ ExampleMultiUserIngestion.calculate_credibility_score dt pr v pd au now
        ∧ ExampleMultiUserIngestion.calculate_credibility_score dt pr v pd au now ≤ 1) := by
  intro dt v pr pd au now
  have h1 := PR_score_bounds dt v pr pd au now
  have h2 := EX_score_bounds dt pr v pd au now
  exact ⟨⟨by linarith [h1.1], h1.2⟩, ⟨by linarith [h2.1], h2.2⟩⟩

/-- Claim C3, counterexample: the scorers read the clock ambiently
(`datetime.now()` inside the body), so two calls with identical Python
arguments made at different times disagree: a date 365 days back scores 0.5,
the same call 4000 days later scores 0.35. The reference time is therefore
NOT an explicit parameter of the scoring function. -/
theorem credibility_depends_on_ambient_time :
    PreprocessingRecommendation.calculate_credibility_score "paper" none false (some 0) [] 365
      ≠ PreprocessingRecommendation.calculate_credibility_score "paper" none false (some 0) [] 4000 := by
  rw [PR_score_recent, PR_score_stale]
  norm_num

/-- Claim C3 (amended): the scorers read the reference time from the ambient
system clock (`datetime.now()`), not from an explicit parameter; modelling
that clock reading as an extra input `now`, both scorers are deterministic:
identical (doc_type, peer_reviewed, venue, date, authors, now) give
identical results, but the five Python call arguments alone do not determine
the result (0.5 versus 0.35 on the same arguments at two clock values). -/
theorem credibility_deterministic_given_clock :
    (∀ (dt : String) (v : Option String) (pr : Bool) (pd : Option ℤ)
        (au : List String) (n₁ n₂ : ℤ), n₁ = n₂ →
      PreprocessingRecommendation.calculate_credibility_score dt v pr pd au n₁
        = PreprocessingRecommendation.calculate_credibility_score dt v pr pd au n₂
      ∧ ExampleMultiUserIngestion.calculate_credibility_score dt pr v pd au n₁
        = ExampleMultiUserIngestion.calculate_credibility_score dt pr v pd au n₂)
    ∧ PreprocessingRecommendation.calculate_credibility_score "paper" none false (some 0) [] 365
        = 0.5
    ∧ PreprocessingRecommendation.calculate_credibility_score "paper" none false (some 0) [] 4000
        = 0.35 :=
  ⟨fun _ _ _ _ _ _ _ h => by rw [h]; exact ⟨rfl, rfl⟩, PR_score_recent, PR_score_stale⟩

/-- Witness for C3's amended theorem at a concrete input. -/
theorem credibility_deterministic_given_clock_witness :
    PreprocessingRecommendation.calculate_credibility_score "paper" none false none [] 7
      = PreprocessingRecommendation.calculate_credibility_score "paper" none false none [] 7
    ∧ ExampleMultiUserIngestion.calculate_credibility_score "paper" false none none [] 7
      = ExampleMultiUserIngestion.calculate_credibility_score "paper" false none none [] 7 :=
  credibility_deterministic_given_clock.1 "paper" none false none [] 7 7 rfl

/-- Claim C10: with the shipped constants both scorers are bounded below by
0.05: the smallest base score is 0.1 and the only possible deduction is the
single 0.05 old-age penalty (absent altogether in the example file). -/
theorem credibility_score_at_least_one_twentieth :
    ∀ (dt : String) (v : Option String) (pr : Bool) (pd : Option ℤ)
      (au : List String) (now : ℤ),
      (0.05 : ℚ) ≤ PreprocessingRecommendation.calculate_credibility_score dt v pr pd au now
      ∧ (0.05 : ℚ) ≤ ExampleMultiUserIngestion.calculate_credibility_score dt pr v pd au now :=
  fun dt v pr pd au now => ⟨(PR_score_bounds dt v pr pd au now).1, (EX_score_bounds dt pr v pd au now).1⟩

/-! ## Normalizer lemmas -/

theorem splitComma_ne_nil (l : List Char) : splitComma l ≠ [] := by
  cases l with
  | nil => simp [splitComma]
  | cons c rest =>
    simp only [splitComma]
    split_ifs with h
    · simp
    · cases hs : splitComma rest <;> simp [hs]

theorem splitComma_head (l : List Char) :
    (splitComma l).getD 0 [] = l.takeWhile (· ≠ ',') := by
  induction l with
  | nil => rfl
  | cons c rest ih =>
    simp only [splitComma]
    split_ifs with h
    · subst h
      simp [List.takeWhile_cons]
    · cases hs : splitComma rest with
      | nil => exact absurd hs (splitComma_ne_nil rest)
      | cons p ps =>
        rw [hs] at ih
        simp only [List.getD_cons_zero] at ih
        simp [hs, List.takeWhile_cons, h, ih]

theorem splitComma_second (l : List Char) (hmem : ',' ∈ l) :
    (splitComma l).getD 1 [] = ((l.dropWhile (· ≠ ',')).drop 1).takeWhile (· ≠ ',') := by
  induction l with
  | nil => cases hmem
  | cons c rest ih =>
    simp only [splitComma]
    split_ifs with h
    · subst h
      have hd : List.dropWhile (fun x => decide (x ≠ ',')) (',' :: rest) = ',' :: rest := by
        rw [List.dropWhile_cons]
        simp
      calc (([] : List Char) :: splitComma rest).getD 1 []
          = (splitComma rest).getD 0 [] := rfl
        _ = rest.takeWhile (· ≠ ',') := splitComma_head rest
        _ = ((((',' :: rest).dropWhile (· ≠ ',')).drop 1).takeWhile (· ≠ ',')) := by
            simp [hd]
    · have hr : ',' ∈ rest := by
        rcases List.mem_cons.mp hmem with h' | h'
        · exact absurd h'.symm h
        · exact h'
      cases hs : splitComma rest with
      | nil => exact absurd hs (splitComma_ne_nil rest)
      | cons p ps =>
        have hrec := ih hr
        rw [hs] at hrec
        have hd : List.dropWhile (fun x => decide (x ≠ ',')) (c :: rest)
            = List.dropWhile (fun x => decide (x ≠ ',')) rest := by
          rw [List.dropWhile_cons]
          simp [h]
        rw [hd]
        exact hrec

theorem getD_map_trim (l : List (List Char)) (i : ℕ) :
    (l.map trimWS).getD i [] = trimWS (l.getD i []) := by
  induction l generalizing i with
  | nil => cases i <;> rfl
  | cons x xs ih =>
    cases i with
    | zero => rfl
    | succ n => exact ih n

theorem ss_head {c : Char} {rest : List Char} (h : singleSpaced (c :: rest) = true) :
    c.isWhitespace = false ∨ c = ' ' := by
  cases rest with
  | nil =>
    simp only [singleSpaced] at h
    simp at h
    tauto
  | cons d r2 =>
    simp only [singleSpaced] at h
    simp at h
    tauto

theorem ss_tail {c : Char} {rest : List Char} (h : singleSpaced (c :: rest) = true) :
    singleSpaced rest = true := by
  cases rest with
  | nil => rfl
  | cons d r2 =>
    simp only [singleSpaced, Bool.and_eq_true] at h
    exact h.2

theorem ss_pair {c d : Char} {rest : List Char}
    (h : singleSpaced (c :: d :: rest) = true) : ¬(c = ' ' ∧ d = ' ') := by
  simp only [singleSpaced] at h
  simp at h
  tauto

theorem collapse_eq_map : ∀ l : List Char, singleSpaced l = true →
    (collapseWS false l = l.map (fun c => if c = ' ' then '_' else c)
      ∧ (headNotWS l = true →
          collapseWS true l = l.map (fun c => if c = ' ' then '_' else c))) := by
  intro l
  induction l with
  | nil => exact fun _ => ⟨rfl, fun _ => rfl⟩
  | cons c rest ih =>
    intro h
    obtain ⟨ih1, ih2⟩ := ih (ss_tail h)
    have hsw : (' ' : Char).isWhitespace = true := by decide
    by_cases hw : c.isWhitespace
    · have hc : c = ' ' := by
        rcases ss_head h with h' | h'
        · rw [hw] at h'; cases h'
        · exact h'
      subst hc
      have hhead : headNotWS rest = true := by
        cases rest with
        | nil => rfl
        | cons d r2 =>
          have hd : ¬ d = ' ' := fun e => absurd ⟨rfl, e⟩ (ss_pair h)
          have hdw : d.isWhitespace = false := by
            rcases ss_head (ss_tail h) with h' | h'
            · exact h'
            · exact absurd h' hd
          simp [headNotWS, hdw]
      constructor
      · rw [show collapseWS false (' ' :: rest) = '_' :: collapseWS true rest from by
          simp [collapseWS, hsw]]
        rw [ih2 hhead]
        simp
      · intro hcontra
        have hfalse : headNotWS (' ' :: rest) = false := by simp [headNotWS, hsw]
        rw [hfalse] at hcontra
        cases hcontra
    · have hwf : c.isWhitespace = false := by
        cases hb : c.isWhitespace
        · rfl
        · exact absurd hb hw
      have hc : ¬ c = ' ' := fun e => by rw [e] at hwf; rw [hsw] at hwf; cases hwf
      refine ⟨?_, fun _ => ?_⟩ <;> simp [collapseWS, hwf, hc, ih1]

/-- Claim C5, counterexample: the validator splits on EVERY comma and keeps
only the first two trimmed parts, so an input with two commas loses text:
"Smith, John, Jr." becomes "John Smith", while splitting on the first comma
only (as the claim states) would give "John, Jr. Smith". -/
theorem author_normalization_not_first_comma :
    PreprocessingRecommendation.normalize_author_names "Smith, John, Jr." = "John Smith"
    ∧ (⟨normalize_author_spec ("Smith, John, Jr.").data⟩ : String) = "John, Jr. Smith"
    ∧ PreprocessingRecommendation.normalize_author_names "Smith, John, Jr."
        ≠ (⟨normalize_author_spec ("Smith, John, Jr.").data⟩ : String) := by
  refine ⟨by decide, by decide, by decide⟩

/-- Claim C5 (amended): author normalization returns comma-free inputs
unchanged; on an input containing a comma it splits at every comma, trims
each part, and returns "<second part> <first part>" (parts after the second
are dropped, so only the text up to the second comma survives); applied
element-wise it preserves order and length; "Turing, Alan" still maps to
"Alan Turing", while "Smith, John, Jr." maps to "John Smith". -/
theorem author_normalization_characterization :
    (∀ a : List Char, ',' ∉ a → PreprocessingRecommendation.normalizeAuthorChars a = a)
    ∧ (∀ a : List Char, ',' ∈ a →
        PreprocessingRecommendation.normalizeAuthorChars a =
          trimWS (((a.dropWhile (· ≠ ',')).drop 1).takeWhile (· ≠ ','))
            ++ ' ' :: trimWS (a.takeWhile (· ≠ ',')))
    ∧ (∀ l : List String,
        (l.map PreprocessingRecommendation.normalize_author_names).length = l.length)
    ∧ PreprocessingRecommendation.normalize_author_names "Turing, Alan" = "Alan Turing"
    ∧ PreprocessingRecommendation.normalize_author_names "Smith, John, Jr." = "John Smith" := by
  refine ⟨?_, ?_, fun l => List.length_map l _, by decide, by decide⟩
  · intro a ha
    unfold PreprocessingRecommendation.normalizeAuthorChars
    rw [if_neg ha]
  · intro a ha
    unfold PreprocessingRecommendation.normalizeAuthorChars
    rw [if_pos ha, getD_map_trim, getD_map_trim, splitComma_head, splitComma_second a ha]

/-- Witness for C5's amended theorem at the concrete input "Turing, Alan". -/
theorem author_normalization_characterization_witness :
    PreprocessingRecommendation.normalizeAuthorChars ("Turing, Alan").data =
      trimWS (((("Turing, Alan").data.dropWhile (· ≠ ',')).drop 1).takeWhile (· ≠ ','))
        ++ ' ' :: trimWS (("Turing, Alan").data.takeWhile (· ≠ ',')) :=
  author_normalization_characterization.2.1 ("Turing, Alan").data (by decide)

/-- Claim C6, counterexample: token normalization replaces each single space
character, not whitespace runs: "a  b" (two spaces) maps to "a__b", while
collapsing every whitespace run to one underscore would give "a_b". -/
theorem token_normalization_not_run_collapsing :
    PreprocessingRecommendation.lowercase_and_normalize ["a  b"] = ["a__b"]
    ∧ (⟨normalize_token_spec ("a  b").data⟩ : String) = "a_b"
    ∧ PreprocessingRecommendation.lowercase_and_normalize ["a  b"]
        ≠ [(⟨normalize_token_spec ("a  b").data⟩ : String)] := by
  refine ⟨by decide, by decide, by decide⟩

/-- Claim C6 (amended): `lowercase_and_normalize` lower-cases each entry and
replaces each single space character by an underscore — a run of k spaces
becomes k underscores and non-space whitespace is left alone — element-wise,
preserving length, order and duplicates; it agrees with the run-collapsing
reading exactly when every whitespace character is an isolated space; the
example "Large Language Model" still maps to "large_language_model". -/
theorem token_normalization_characterization :
    (∀ l : List String,
      (PreprocessingRecommendation.lowercase_and_normalize l).length = l.length)
    ∧ (∀ v : List Char, PreprocessingRecommendation.tokenChars v
        = (lowerL v).map (fun c => if c = ' ' then '_' else c))
    ∧ (∀ v : List Char, singleSpaced (lowerL v) = true →
        PreprocessingRecommendation.tokenChars v = normalize_token_spec v)
    ∧ (∀ n : ℕ, PreprocessingRecommendation.tokenChars (List.replicate n ' ')
        = List.replicate n '_')
    ∧ PreprocessingRecommendation.lowercase_and_normalize ["Large Language Model"]
        = ["large_language_model"] := by
  refine ⟨fun l => List.length_map l _, fun v => rfl, ?_, ?_, by decide⟩
  · intro v hv
    unfold PreprocessingRecommendation.tokenChars normalize_token_spec
    exact (collapse_eq_map (lowerL v) hv).1.symm
  · intro n
    unfold PreprocessingRecommendation.tokenChars lowerL
    rw [List.map_replicate, List.map_replicate]
    have hr : (if Char.toLower ' ' = ' ' then '_' else Char.toLower ' ') = '_' := by decide
    rw [hr]

/-- Witness for C6's amended theorem at the concrete input "Large Language
Model". -/
theorem token_normalization_characterization_witness :
    PreprocessingRecommendation.tokenChars ("Large Language Model").data
      = normalize_token_spec ("Large Language Model").data :=
  token_normalization_characterization.2.2.1 ("Large Language Model").data (by decide)

/-! ## Whole-word search lemmas -/

theorem wwSearch_iff (p t : List Char) :
    wwSearch p t = true ↔ ∃ i, i ≤ t.length ∧ wwMatchAt p t i = true := by
  unfold wwSearch
  rw [List.any_eq_true]
  constructor
  · rintro ⟨i, hi, hp⟩
    exact ⟨i, Nat.lt_succ_iff.mp (List.mem_range.mp hi), hp⟩
  · rintro ⟨i, hi, hp⟩
    exact ⟨i, List.mem_range.mpr (Nat.lt_succ_iff.mpr hi), hp⟩

theorem scanWW_some {p t : List Char} : ∀ (fuel i j : ℕ),
    scanWW p t fuel i = some j →
    wwMatchAt p t j = true ∧ i ≤ j ∧ ∀ k, i ≤ k → k < j → wwMatchAt p t k = false := by
  intro fuel
  induction fuel with
  | zero => intro i j h; cases h
  | succ n ih =>
    intro i j h
    simp only [scanWW] at h
    by_cases hm : wwMatchAt p t i = true
    · rw [if_pos hm] at h
      injection h with h'
      subst h'
      exact ⟨hm, le_rfl, fun k hk1 hk2 => absurd hk2 (not_lt.mpr hk1)⟩
    · rw [if_neg hm] at h
      obtain ⟨hj, hij, hall⟩ := ih (i + 1) j h
      refine ⟨hj, le_trans (Nat.le_succ i) hij, ?_⟩
      intro k hk1 hk2
      rcases eq_or_lt_of_le hk1 with rfl | hk
      · exact Bool.eq_false_iff.mpr hm
      · exact hall k hk hk2

theorem scanWW_none {p t : List Char} : ∀ (fuel i : ℕ),
    scanWW p t fuel i = none → ∀ k, i ≤ k → k < i + fuel → wwMatchAt p t k = false := by
  intro fuel
  induction fuel with
  | zero => intro i _ k hk1 hk2; exact absurd hk2 (by omega)
  | succ n ih =>
    intro i h k hk1 hk2
    simp only [scanWW] at h
    by_cases hm : wwMatchAt p t i = true
    · rw [if_pos hm] at h
      cases h
    · rw [if_neg hm] at h
      rcases eq_or_lt_of_le hk1 with rfl | hk
      · exact Bool.eq_false_iff.mpr hm
      · exact ih (i + 1) h k hk (by omega)

theorem wwMatchAt_le {p t : List Char} {i : ℕ} (h : wwMatchAt p t i = true) :
    i ≤ t.length := by
  by_contra hlt
  push_neg at hlt
  have hi0 : ¬ (i = 0) := by omega
  have h1 : t.get? i = none := List.get?_eq_none.mpr (le_of_lt hlt)
  have h2 : t.get? (i - 1) = none := List.get?_eq_none.mpr (by omega)
  have hb : boundaryB t i = false := by
    unfold boundaryB wordAt
    rw [if_neg hi0, h1, h2]
    rfl
  unfold wwMatchAt at h
  rw [hb] at h
  simp at h

theorem findFirstWW_eq_some {p t : List Char} {i : ℕ}
    (hi : wwMatchAt p t i = true) (hleast : ∀ j, j < i → wwMatchAt p t j = false) :
    findFirstWW p t = some i := by
  have hbound : i ≤ t.length := wwMatchAt_le hi
  unfold findFirstWW
  cases h : scanWW p t (t.length + 1) 0 with
  | none =>
    have hx := scanWW_none (t.length + 1) 0 h i (Nat.zero_le _) (by omega)
    rw [hi] at hx
    cases hx
  | some j =>
    obtain ⟨hj, _, hall⟩ := scanWW_some (t.length + 1) 0 j h
    rcases lt_trichotomy i j with hlt | rfl | hgt
    · have hx := hall i (Nat.zero_le _) hlt
      rw [hi] at hx
      cases hx
    · rfl
    · have hx := hleast j hgt
      rw [hj] at hx
      cases hx

/-- Claim C7: `extract_canonical_entities` looks the domain up after
lower-casing; an unknown domain yields the empty mapping (never a failure),
and for any domain a pair belongs to the result exactly when it belongs to
the domain's term table AND its abbreviation occurs in the text as a whole
word, matched case-insensitively, at least once. -/
theorem extract_canonical_entities_spec :
    ∀ (text domain : String),
      (lowerStr domain ∉ (["ai", "quantum_computing", "biology"] : List String) →
        PreprocessingRecommendation.extract_canonical_entities text domain = [])
      ∧ (∀ ab term : String,
          (ab, term) ∈ PreprocessingRecommendation.extract_canonical_entities text domain ↔
            (ab, term) ∈ (List.lookup (lowerStr domain)
                PreprocessingRecommendation.CANONICAL_TERMS).getD []
              ∧ OccursWholeWordCI ab text) := by
  intro text domain
  constructor
  · intro hd
    have h1 : ¬ (lowerStr domain = "ai") := fun e => hd (by rw [e]; simp)
    have h2 : ¬ (lowerStr domain = "quantum_computing") := fun e => hd (by rw [e]; simp)
    have h3 : ¬ (lowerStr domain = "biology") := fun e => hd (by rw [e]; simp)
    unfold PreprocessingRecommendation.extract_canonical_entities
    simp [PreprocessingRecommendation.CANONICAL_TERMS, List.lookup,
      beq_eq_false_iff_ne.mpr h1, beq_eq_false_iff_ne.mpr h2, beq_eq_false_iff_ne.mpr h3]
  · intro ab term
    unfold PreprocessingRecommendation.extract_canonical_entities
    rw [List.mem_filter]
    constructor
    · rintro ⟨hmem, hsearch⟩
      exact ⟨hmem, (wwSearch_iff ab.data text.data).mp hsearch⟩
    · rintro ⟨hmem, hocc⟩
      exact ⟨hmem, (wwSearch_iff ab.data text.data).mpr hocc⟩

/-- Witness for C7 at the spec's own examples: an unknown domain returns the
empty mapping. -/
theorem extract_canonical_entities_spec_witness :
    PreprocessingRecommendation.extract_canonical_entities
      "The GPT model uses attention." "unknown_domain" = [] :=
  (extract_canonical_entities_spec "The GPT model uses attention." "unknown_domain").1
    (by decide)

/-- Claim C8: for each pair of the canonical map, the embed operation
replaces only the FIRST whole-word case-insensitive occurrence of the
abbreviation with "<abbreviation> (<canonical_term>)": at the least matching
position the text decomposes into the untouched front, the replacement, and
the untouched tail (so every later occurrence survives verbatim); with no
whole-word occurrence the text is unchanged; the map is folded pair by pair;
and on the spec's example only the first "GPT" is expanded. -/
theorem enrich_first_occurrence_only :
    (∀ (ab term : String) (t : List Char) (i : ℕ),
      wwMatchAt ab.data t i = true → (∀ j, j < i → wwMatchAt ab.data t j = false) →
      subFirstWW ab.data (ab.data ++ (' ' :: '(' :: (term.data ++ [')']))) t
        = t.take i ++ (ab.data ++ (' ' :: '(' :: (term.data ++ [')'])))
            ++ t.drop (i + ab.data.length))
    ∧ (∀ (ab term : String) (t : List Char),
        (∀ j, wwMatchAt ab.data t j = false) →
        subFirstWW ab.data (ab.data ++ (' ' :: '(' :: (term.data ++ [')']))) t = t)
    ∧ (∀ (ab term : String) (text : String),
        PreprocessingRecommendation.enrich_text_with_canonical_terms text [(ab, term)]
          = ⟨subFirstWW ab.data (ab.data ++ (' ' :: '(' :: (term.data ++ [')']))) text.data⟩)
    ∧ PreprocessingRecommendation.enrich_text_with_canonical_terms "GPT and GPT again"
        [("GPT", "Generative Pre-trained Transformer")]
      = "GPT (Generative Pre-trained Transformer) and GPT again" := by
  refine ⟨?_, ?_, fun ab term text => rfl, by decide⟩
  · intro ab term t i hm hleast
    unfold subFirstWW
    rw [findFirstWW_eq_some hm hleast]
  · intro ab term t hnone
    unfold subFirstWW
    cases hf : findFirstWW ab.data t with
    | none => rfl
    | some j =>
      unfold findFirstWW at hf
      obtain ⟨hj, _, _⟩ := scanWW_some _ _ j hf
      rw [hnone j] at hj
      cases hj

/-- Witness for C8 at the spec's example text: the first "GPT" sits at
position 0, and the substitution yields front ++ replacement ++ tail. -/
theorem enrich_first_occurrence_only_witness :
    subFirstWW ("GPT").data
        (("GPT").data ++ (' ' :: '(' :: (("Generative Pre-trained Transformer").data ++ [')'])))
        ("GPT and GPT again").data
      = ("GPT and GPT again").data.take 0
          ++ (("GPT").data ++ (' ' :: '(' :: (("Generative Pre-trained Transformer").data ++ [')'])))
          ++ ("GPT and GPT again").data.drop (0 + ("GPT").data.length) :=
  enrich_first_occurrence_only.1 "GPT" "Generative Pre-trained Transformer"
    ("GPT and GPT again").data 0 (by decide) (fun j hj => absurd hj (Nat.not_lt_zero j))

/-- Claim C9: for every topic the extraction-instruction string is exactly
the fixed preamble, then the canonical-naming block selected by the topic
(an empty block for unknown topics), then the fixed entity-type catalog, the
fixed relationship-type catalog and the fixed consistency-rules block, in
that order; only the canonical-naming block depends on the topic. -/
theorem custom_prompt_structure :
    ∀ topic : String,
      ExampleMultiUserIngestion.get_custom_prompt topic =
        ExampleMultiUserIngestion.base_prompt ++ canonicalBlockSpec topic
          ++ ExampleMultiUserIngestion.entity_types
          ++ ExampleMultiUserIngestion.relationships
          ++ ExampleMultiUserIngestion.consistency
      ∧ (topic ≠ "AI" → topic ≠ "quantum_computing" → topic ≠ "biology" →
          canonicalBlockSpec topic = "") := by
  intro topic
  constructor
  · by_cases h1 : topic = "AI"
    · subst h1
      simp [ExampleMultiUserIngestion.get_custom_prompt,
        ExampleMultiUserIngestion.canonical_mappings, canonicalBlockSpec, List.lookup]
    by_cases h2 : topic = "quantum_computing"
    · subst h2
      simp [ExampleMultiUserIngestion.get_custom_prompt,
        ExampleMultiUserIngestion.canonical_mappings, canonicalBlockSpec, List.lookup]
    by_cases h3 : topic = "biology"
    · subst h3
      simp [ExampleMultiUserIngestion.get_custom_prompt,
        ExampleMultiUserIngestion.canonical_mappings, canonicalBlockSpec, List.lookup]
    simp [ExampleMultiUserIngestion.get_custom_prompt,
      ExampleMultiUserIngestion.canonical_mappings, canonicalBlockSpec, List.lookup,
      beq_eq_false_iff_ne.mpr h1, beq_eq_false_iff_ne.mpr h2, beq_eq_false_iff_ne.mpr h3,
      h1, h2, h3]
  · intro h1 h2 h3
    unfold canonicalBlockSpec
    rw [if_neg h1, if_neg h2, if_neg h3]

/-- Witness for C9 at the unknown topic "history": the selected
canonical-naming block is empty. -/
theorem custom_prompt_structure_witness : canonicalBlockSpec "history" = "" :=
  (custom_prompt_structure "history").2 (by decide) (by decide) (by decide)

/-- Claim C4, counterexample: a bag whose title is the EMPTY string is
accepted — pydantic validates `str` fields by type only, so construction
does not fail on empty `title`/`primary_topic`/`doc_type` as the claim
states. -/
theorem metadata_empty_title_accepted :
    exceptOk (PreprocessingRecommendation.mkDocumentMetadata
      { title := some "", primary_topic := some "AI", doc_type := some "article" }) = true := by
  decide

/-- Claim C4 (amended): construction from a property bag fails with a
ValidationError exactly when `title`, `primary_topic` or `doc_type` is
ABSENT, or a supplied `credibility_score` lies outside [0, 1]; empty strings
are ordinary values and are accepted. On failure only an error value exists
(no partially constructed record), and records compare by value: two records
with equal fields are equal. -/
theorem metadata_validation_characterization :
    (∀ bag : PreprocessingRecommendation.MetadataBag,
      exceptOk (PreprocessingRecommendation.mkDocumentMetadata bag) = true ↔
        (bag.title.isSome ∧ bag.primary_topic.isSome ∧ bag.doc_type.isSome
          ∧ ∀ c : ℚ, bag.credibility_score.getD none = some c → 0 ≤ c ∧ c ≤ 1))
    ∧ (∀ r₁ r₂ : PreprocessingRecommendation.DocumentMetadata,
        r₁.title = r₂.title → r₁.authors = r₂.authors →
        r₁.publication_date = r₂.publication_date → r₁.source_url = r₂.source_url →
        r₁.primary_topic = r₂.primary_topic → r₁.subtopics = r₂.subtopics →
        r₁.keywords = r₂.keywords → r₁.doc_type = r₂.doc_type →
        r₁.credibility_score = r₂.credibility_score →
        r₁.publication_venue = r₂.publication_venue →
        r₁.peer_reviewed = r₂.peer_reviewed → r₁.language = r₂.language →
        r₁.reading_level = r₂.reading_level →
        r₁.estimated_read_time_minutes = r₂.estimated_read_time_minutes →
        r₁.external_ids = r₂.external_ids → r₁.cited_works = r₂.cited_works →
        r₁.custom_tags = r₂.custom_tags → r₁.content_warnings = r₂.content_warnings →
        r₁ = r₂) := by
  constructor
  · intro bag
    unfold PreprocessingRecommendation.mkDocumentMetadata
    cases hT : bag.title with
    | none => simp [exceptOk]
    | some t =>
      cases hP : bag.primary_topic with
      | none => simp [exceptOk]
      | some pt =>
        cases hD : bag.doc_type with
        | none => simp [exceptOk]
        | some dt =>
          cases hC : bag.credibility_score.getD none with
          | none => simp [exceptOk]
          | some c =>
            dsimp only
            split_ifs with hc
            · simp only [exceptOk, Option.isSome_some, true_and]
              constructor
              · intro _ c' hc'
                injection hc' with hc''
                subst hc''
                exact hc
              · intro _
                trivial
            · simp only [exceptOk, Option.isSome_some, true_and]
              constructor
              · intro h
                cases h
              · intro hall
                exact absurd (hall c rfl) hc
  · intro r₁ r₂
    cases r₁
    cases r₂
    intros
    simp_all

/-- Witness for C4's amended theorem: value equality at a concrete record. -/
theorem metadata_validation_characterization_witness :
    (PreprocessingRecommendation.DocumentMetadata.mk "t" [] none none "AI" [] [] "article"
        none none false "en" none none [] [] [] [])
      = (PreprocessingRecommendation.DocumentMetadata.mk "t" [] none none "AI" [] [] "article"
        none none false "en" none none [] [] [] []) :=
  metadata_validation_characterization.2 _ _ rfl rfl rfl rfl rfl rfl rfl rfl rfl rfl rfl rfl
    rfl rfl rfl rfl rfl rfl
